import Mathlib

/-!
# Verification of the mileage normalization-and-aggregation pipeline

Shallow embedding of the core pipeline of `mileage_process.py`:
`normalize_column_names`, `load_and_prepare` and `aggregate_by_vehicle`.

Text cells are modelled as lists of character code points (`PyStr`), numeric
cells as rationals, and the pandas "NaN" sentinel as `Option.none` (for coerced
numerics) or the `PyVal.nan` constructor (for raw cell values).  Dataframe
operations that act column-wise are embedded row-wise: every pandas column
assignment in the source touches each row independently, so a per-row function
mapped over the row list is an exact model.
-/

namespace Mileage

/-- A Python string, as the list of its character code points. -/
abbrev PyStr := List Nat

/-- Code points of a Lean string literal, used to write concrete `PyStr` values. -/
def ofStr (s : String) : PyStr := s.data.map Char.toNat

/-! ## Schema normalizer (`normalize_column_names`)

Column names are compared for exact equality only, so they are modelled as
Lean `String`s.  A dataframe, for the purposes of the normalizer, is its list
of column names. -/

/-- Canonical column names (module constants of `mileage_process.py`). -/
def VEHICLE_COL : String := "Vehicle"

def BEGIN_COL : String := "Start Mileage"

def END_COL : String := "End Mileage"

def TYPE_COL : String := "Mileage Type"

/-- The `col_map` dict built in `normalize_column_names`: the `if`/`elif`
chain for the vehicle column, then one `if` per exact canonical name. -/
def colMap (cols : List String) : List (String × String) :=
  (if "Vehicle" ∈ cols then [("Vehicle", VEHICLE_COL)]
   else if "Vehicle Used" ∈ cols then [("Vehicle Used", VEHICLE_COL)]
   else [])
  ++ (if "Start Mileage" ∈ cols then [("Start Mileage", BEGIN_COL)] else [])
  ++ (if "End Mileage" ∈ cols then [("End Mileage", END_COL)] else [])
  ++ (if "Mileage Type" ∈ cols then [("Mileage Type", TYPE_COL)] else [])

/-- Model of `df.rename(columns=m)` on one column name: replace it when the mapping has
an entry for it (dict keys are unique, so the first entry decides), keep it
unchanged otherwise. -/
def renameCol (m : List (String × String)) (c : String) : String :=
  match m with
  | [] => c
  | (k, v) :: rest => if c = k then v else renameCol rest c

/-- The column names of `df.rename(columns=col_map)`. -/
def renameCols (cols : List String) : List String :=
  cols.map (renameCol (colMap cols))

/-- The `expected` list of required canonical columns. -/
def expectedCols : List String := [VEHICLE_COL, BEGIN_COL, END_COL, TYPE_COL]

/-- The source's `missing = [c for c in expected if c not in df.columns]`, after the rename. -/
def missingCols (cols : List String) : List String :=
  expectedCols.filter (fun c => ¬ c ∈ renameCols cols)

/-- Embeds `normalize_column_names`: rename synonyms to canonical names, then fail
(listing the missing canonical columns) when any required column is absent.
The source signals the failure by printing the `missing` list and raising
`SystemExit(1)`; the embedding returns that list on the error channel. -/
def normalize_column_names (cols : List String) : Except (List String) (List String) :=
  let renamed := renameCols cols
  let missing := missingCols cols
  if missing = [] then .ok renamed else .error missing

/-! ## Character-level string operations (ASCII fragment)

`load_and_prepare` uses `str.strip`, `str.title`, `str.lower` (via
`case=False`) and substring containment.  They are embedded on code points;
the ASCII ranges below are the ones these Python methods act on for the
ASCII fragment modelled here. -/

/-- Whitespace, as stripped by `str.strip` (ASCII fragment). -/
def isSpaceN (n : Nat) : Bool := n = 32 ∨ n = 9 ∨ n = 10 ∨ n = 13

/-- Cased (alphabetic) character, ASCII fragment. -/
def isAlphaN (n : Nat) : Bool := (65 ≤ n ∧ n ≤ 90) ∨ (97 ≤ n ∧ n ≤ 122)

/-- Model of `str.lower` on one code point. -/
def toLowerN (n : Nat) : Nat := if 65 ≤ n ∧ n ≤ 90 then n + 32 else n

/-- Model of `str.upper` on one code point. -/
def toUpperN (n : Nat) : Nat := if 97 ≤ n ∧ n ≤ 122 then n - 32 else n

/-- Model of `str.strip`: drop leading and trailing whitespace. -/
def stripN (s : PyStr) : PyStr :=
  ((s.dropWhile isSpaceN).reverse.dropWhile isSpaceN).reverse

/-- Body of `str.title`: a cased character following a cased character is
lowercased, a cased character following anything else is uppercased, and
uncased characters pass through.  The flag carries whether the previous
character was cased. -/
def titleAux (prevCased : Bool) : PyStr → PyStr
  | [] => []
  | c :: cs =>
    (if isAlphaN c then (if prevCased then toLowerN c else toUpperN c) else c)
      :: titleAux (isAlphaN c) cs

/-- Model of `str.title`. -/
def titleN (s : PyStr) : PyStr := titleAux false s

/-- Lowercase a whole string. -/
def lowerN (s : PyStr) : PyStr := s.map toLowerN

/-- Python `needle in hay` substring containment. -/
def containsSub (needle : PyStr) : PyStr → Bool
  | [] => needle.isEmpty
  | c :: rest => needle.isPrefixOf (c :: rest) || containsSub needle rest

/-! ## Cell values and numeric coercion -/

/-- A raw dataframe cell: a number, a string, or the NaN/missing sentinel. -/
inductive PyVal where
  | num (q : ℚ)
  | str (s : PyStr)
  | nan
  deriving DecidableEq

/-- One decimal digit from a code point. -/
def digitVal (n : Nat) : Option Nat :=
  if 48 ≤ n ∧ n ≤ 57 then some (n - 48) else none

/-- Value of an all-digit string (empty gives 0); `none` on any non-digit. -/
def digitsVal (l : PyStr) : Option Nat :=
  l.foldl
    (fun acc c =>
      match acc, digitVal c with
      | some a, some d => some (a * 10 + d)
      | _, _ => none)
    (some 0)

/-- Split a string at its first `.` (code point 46), when it has one. -/
def splitDot (l : PyStr) : PyStr × Option PyStr :=
  match l with
  | [] => ([], none)
  | c :: rest =>
    if c = 46 then ([], some rest)
    else
      let (i, f) := splitDot rest
      (c :: i, f)

/-- Parse a decimal numeral `[+-]digits[.digits]` (either digit group may be
empty but not both), tolerating surrounding whitespace; `none` otherwise.
Models the float parsing behind `pd.to_numeric(..., errors="coerce")` on the
decimal fragment. -/
def parsePyNum (s : PyStr) : Option ℚ :=
  match stripN s with
  | [] => none
  | c :: rest =>
    let (neg, body) :=
      if c = 45 then (true, rest)
      else if c = 43 then (false, rest)
      else (false, c :: rest)
    let (intPart, fracPart) := splitDot body
    match digitsVal intPart, digitsVal (fracPart.getD []) with
    | some iv, some fv =>
      if intPart = [] ∧ fracPart.getD [] = [] then none
      else
        let k := (fracPart.getD []).length
        let mag : ℚ := ((iv * 10 ^ k + fv : ℕ) : ℚ) / ((10 ^ k : ℕ) : ℚ)
        some (if neg then -mag else mag)
    | _, _ => none

/-- Model of `pd.to_numeric(v, errors="coerce")` on one cell: numbers pass through,
strings are parsed or become NaN, NaN stays NaN.  Total — never raises. -/
def toNumeric (v : PyVal) : Option ℚ :=
  match v with
  | .num q => some q
  | .str s => parsePyNum s
  | .nan => none

/-- Decimal-style digits of a natural number (big-endian code points). -/
def natDigitsStr (n : Nat) : PyStr :=
  if n = 0 then [48] else ((Nat.digits 10 n).reverse.map (· + 48))

/-- Model of `str(v)` as applied by `.astype(str)`: strings pass through, NaN becomes
the text `"nan"`, and a number renders to sign/digits/dot text (a stand-in
for Python float repr; the pipeline only ever searches this text for the
letters of `"commute"`, which digit text never contains). -/
def pyToStr (v : PyVal) : PyStr :=
  match v with
  | .str s => s
  | .nan => ofStr "nan"
  | .num q =>
    (if q.num < 0 then [45] else [])
      ++ natDigitsStr (q.num.natAbs / q.den) ++ [46] ++ natDigitsStr (q.num.natAbs % q.den)

/-! ## Row preparer (`load_and_prepare`, value part)

After `normalize_column_names` succeeds the dataframe has the four canonical
columns; the remaining statements of `load_and_prepare` are column-wise
assignments, embedded here as one function per row.  Extra columns (Date,
Source File, ...) pass through untouched and carry no logic, so a row is
modelled by its four canonical cells. -/

/-- A row of the normalized dataframe: the four canonical cells. -/
structure CanonRow where
  vehicle : PyVal
  startM : PyVal
  endM : PyVal
  mtype : PyVal
  deriving DecidableEq

/-- A prepared row: cleaned vehicle text, coerced odometer readings, the
derived `Miles`, `_row_ok` and `_is_commute` columns, and the untouched
`Mileage Type` cell. -/
structure PreparedRow where
  vehicle : PyStr
  startM : Option ℚ
  endM : Option ℚ
  mtype : PyVal
  miles : Option ℚ
  rowOk : Bool
  isCommute : Bool
  deriving DecidableEq

/-- Model of `df["Miles"] = df[END_COL] - df[BEGIN_COL]`: NaN on either side
propagates to NaN. -/
def subNaN (e s : Option ℚ) : Option ℚ :=
  match e, s with
  | some ev, some sv => some (ev - sv)
  | _, _ => none

/-- Model of `df["Miles"].notna() & (df["Miles"] >= 0)` on one row (a NaN comparison
is false in pandas, so a NaN `Miles` always yields `false`). -/
def rowOkOf (m : Option ℚ) : Bool :=
  match m with
  | some mv => 0 ≤ mv
  | none => false

/-- Model of `df[TYPE_COL].astype(str).str.contains("commute", case=False, na=False)`
on one cell: stringify, then case-insensitive substring search. -/
def isCommuteOf (v : PyVal) : Bool :=
  containsSub (ofStr "commute") (lowerN (pyToStr v))

/-- The value transformations of `load_and_prepare` on one row:
vehicle `astype(str).str.strip().str.title()`, numeric coercion of the
odometer columns, `Miles = End - Start`, `_row_ok`, `_is_commute`. -/
def prepareRow (r : CanonRow) : PreparedRow :=
  let veh := titleN (stripN (pyToStr r.vehicle))
  let b := toNumeric r.startM
  let e := toNumeric r.endM
  let m := subNaN e b
  { vehicle := veh
    startM := b
    endM := e
    mtype := r.mtype
    miles := m
    rowOk := rowOkOf m
    isCommute := isCommuteOf r.mtype }

/-- Embeds `load_and_prepare` after normalization: every row is kept and prepared;
no row is ever dropped. -/
def load_and_prepare (rows : List CanonRow) : List PreparedRow :=
  rows.map prepareRow

/-! ## Aggregator (`aggregate_by_vehicle`) -/

/-- One row of the Vehicle Summary. -/
structure SummaryRow where
  vehicle : PyStr
  business : ℚ
  commute : ℚ
  total : ℚ
  deriving DecidableEq

/-- Lexicographic order on code-point strings (pandas sorts string keys by
code point). -/
def lexLe : PyStr → PyStr → Bool
  | [], _ => true
  | _ :: _, [] => false
  | a :: as, b :: bs => if a < b then true else if a = b then lexLe as bs else false

/-- Relation form of `lexLe`, for `List.insertionSort`. -/
def LexLeP (a b : PyStr) : Prop := lexLe a b = true

instance : DecidableRel LexLeP := fun a b =>
  inferInstanceAs (Decidable (lexLe a b = true))

/-- Model of `groupby(...)["Miles"].sum()` over one group: pandas `sum` skips NaN, so
a NaN mile contributes 0. -/
def sumMiles (rows : List PreparedRow) : ℚ :=
  (rows.map (fun r => r.miles.getD 0)).sum

/-- Embeds `aggregate_by_vehicle`: keep the `_row_ok` rows, group by
`(Vehicle, _is_commute)` and sum `Miles`, pivot the two flag values into
`Business_Miles`/`Commute_Miles` with 0.0 for an absent group, add
`Total_Miles`, and sort by vehicle name.  Grouping, pivoting and
`sort_index` are embedded as: one output row per distinct vehicle among the
kept rows, in ascending lexicographic order. -/
def aggregate_by_vehicle (rows : List PreparedRow) : List SummaryRow :=
  let ok := rows.filter (fun r => r.rowOk)
  let keys := ((ok.map (fun r => r.vehicle)).dedup).insertionSort LexLeP
  keys.map fun v =>
    let b := sumMiles (ok.filter (fun r => r.vehicle == v && !r.isCommute))
    let c := sumMiles (ok.filter (fun r => r.vehicle == v && r.isCommute))
    { vehicle := v, business := b, commute := c, total := b + c }

/-! ## Helper lemmas: case-insensitivity of title-casing -/

theorem isAlphaN_of_toLowerN_eq {a b : Nat} (h : toLowerN a = toLowerN b) :
    isAlphaN a = isAlphaN b := by
  unfold toLowerN at h
  unfold isAlphaN
  rw [decide_eq_decide]
  split_ifs at h <;> omega

theorem toUpperN_of_toLowerN_eq {a b : Nat} (h : toLowerN a = toLowerN b) :
    toUpperN a = toUpperN b := by
  unfold toLowerN at h
  unfold toUpperN
  split_ifs at h ⊢ <;> omega

theorem eq_of_toLowerN_eq_not_alpha {a b : Nat} (h : toLowerN a = toLowerN b)
    (ha : isAlphaN a = false) : a = b := by
  unfold toLowerN at h
  unfold isAlphaN at ha
  rw [decide_eq_false_iff_not] at ha
  split_ifs at h <;> omega

theorem titleAux_congr_of_lowerN_eq :
    ∀ (x y : PyStr) (fl : Bool), lowerN x = lowerN y → titleAux fl x = titleAux fl y
  | [], y, _, h => by
    unfold lowerN at h
    simp only [List.map_nil] at h
    rw [(List.map_eq_nil_iff.mp h.symm)]
  | c :: cs, y, fl, h => by
    cases y with
    | nil => simp [lowerN] at h
    | cons d ds =>
      unfold lowerN at h
      simp only [List.map_cons, List.cons.injEq] at h
      obtain ⟨hcd, hrest⟩ := h
      have halpha := isAlphaN_of_toLowerN_eq hcd
      have hupper := toUpperN_of_toLowerN_eq hcd
      unfold titleAux
      rw [halpha]
      have htail := titleAux_congr_of_lowerN_eq cs ds (isAlphaN d) hrest
      cases hA : isAlphaN d with
      | true =>
        rw [hA] at htail
        simp [hcd, hupper, htail]
      | false =>
        rw [hA] at htail
        have hcd2 : c = d := eq_of_toLowerN_eq_not_alpha hcd (halpha.trans hA)
        simp [hcd2, htail]

/-- Claim C4: the row preparer cleans every Vehicle value by coercing to
text, stripping surrounding whitespace and title-casing, and two rows whose
Vehicle texts differ only by case and/or surrounding whitespace (their
stripped texts agree after lowercasing) receive the same cleaned vehicle
name, hence land in the same Vehicle Summary row. -/
theorem prepareRow_vehicle_merges_case_whitespace (r1 r2 : CanonRow) (s1 s2 : PyStr)
    (h1 : r1.vehicle = .str s1) (h2 : r2.vehicle = .str s2)
    (h : lowerN (stripN s1) = lowerN (stripN s2)) :
    (prepareRow r1).vehicle = titleN (stripN s1) ∧
    (prepareRow r1).vehicle = (prepareRow r2).vehicle := by
  have e1 : (prepareRow r1).vehicle = titleN (stripN s1) := by
    simp [prepareRow, h1, pyToStr]
  have e2 : (prepareRow r2).vehicle = titleN (stripN s2) := by
    simp [prepareRow, h2, pyToStr]
  refine ⟨e1, ?_⟩
  rw [e1, e2]
  exact titleAux_congr_of_lowerN_eq _ _ false h

/-- Concrete instance of C4: the records with Vehicle texts `"jim"` and
`" JIM "` clean to the same name, `"Jim"`. -/
theorem prepareRow_vehicle_merges_case_whitespace_witness :
    (prepareRow ⟨.str (ofStr "jim"), .nan, .nan, .nan⟩).vehicle
        = titleN (stripN (ofStr "jim")) ∧
    (prepareRow ⟨.str (ofStr "jim"), .nan, .nan, .nan⟩).vehicle
        = (prepareRow ⟨.str (ofStr " JIM "), .nan, .nan, .nan⟩).vehicle :=
  prepareRow_vehicle_merges_case_whitespace _ _ (ofStr "jim") (ofStr " JIM ")
    rfl rfl (by decide)

/-! ## Theorems about the schema normalizer -/

theorem renameCol_colMap_eq (cols : List String) (c : String) :
    renameCol (colMap cols) c =
      if c = "Vehicle Used" ∧ ¬ "Vehicle" ∈ cols ∧ "Vehicle Used" ∈ cols
      then VEHICLE_COL else c := by
  by_cases hv : "Vehicle" ∈ cols <;>
    by_cases hu : "Vehicle Used" ∈ cols <;>
      by_cases hs : "Start Mileage" ∈ cols <;>
        by_cases he : "End Mileage" ∈ cols <;>
          by_cases ht : "Mileage Type" ∈ cols <;>
            simp only [colMap, hv, hu, hs, he, ht, if_true, if_false,
              not_true, not_false_iff, ite_true, ite_false, List.nil_append,
              List.append_nil, List.cons_append, VEHICLE_COL, BEGIN_COL,
              END_COL, TYPE_COL, renameCol] <;>
              split_ifs <;> simp_all

/-- Claim C8: on whitespace-trimmed column names, the normalizer maps a
column named `Vehicle` (or `Vehicle Used`, when no `Vehicle` column exists)
to the canonical vehicle name, accepts the other three required fields only
under their exact canonical names (any other name is not renamed onto
them), and passes every column not matching a synonym rule through
unchanged. -/
theorem normalize_rename_rules (cols : List String) :
    ("Vehicle" ∈ cols → renameCol (colMap cols) "Vehicle" = VEHICLE_COL) ∧
    ("Vehicle Used" ∈ cols → ¬ "Vehicle" ∈ cols →
      renameCol (colMap cols) "Vehicle Used" = VEHICLE_COL) ∧
    (renameCol (colMap cols) BEGIN_COL = BEGIN_COL ∧
      renameCol (colMap cols) END_COL = END_COL ∧
      renameCol (colMap cols) TYPE_COL = TYPE_COL) ∧
    (∀ c, c ≠ "Vehicle" → c ≠ "Vehicle Used" → renameCol (colMap cols) c = c) := by
  refine ⟨fun hv => ?_, fun hu hv => ?_, ⟨?_, ?_, ?_⟩, fun c h1 h2 => ?_⟩ <;>
    rw [renameCol_colMap_eq] <;> simp_all [VEHICLE_COL, BEGIN_COL, END_COL, TYPE_COL]

/-- Concrete instance of C8: with columns `Vehicle Used`, `Start Mileage`
only, `Vehicle Used` is renamed to `Vehicle` and an unmatched column such as
`Date` passes through. -/
theorem normalize_rename_rules_witness :
    renameCol (colMap ["Date", "Vehicle Used", "Start Mileage"]) "Vehicle Used"
        = VEHICLE_COL ∧
    renameCol (colMap ["Date", "Vehicle Used", "Start Mileage"]) "Date" = "Date" :=
  ⟨(normalize_rename_rules ["Date", "Vehicle Used", "Start Mileage"]).2.1
      (by decide) (by decide),
    (normalize_rename_rules ["Date", "Vehicle Used", "Start Mileage"]).2.2.2
      "Date" (by decide) (by decide)⟩

/-- Claim C10: when both a `Vehicle` and a `Vehicle Used` column are
present, only `Vehicle` is mapped to the canonical vehicle field; `Vehicle
Used` passes through unchanged, and (for duplicate-free input columns) the
renamed dataset still has exactly one column named `Vehicle`. -/
theorem normalize_no_duplicate_canonical (cols : List String) (hnd : cols.Nodup)
    (hv : "Vehicle" ∈ cols) (hu : "Vehicle Used" ∈ cols) :
    renameCol (colMap cols) "Vehicle" = VEHICLE_COL ∧
    renameCol (colMap cols) "Vehicle Used" = "Vehicle Used" ∧
    (renameCols cols).count VEHICLE_COL = 1 := by
  have hid : ∀ c ∈ cols, renameCol (colMap cols) c = c := by
    intro c _
    rw [renameCol_colMap_eq]
    simp [hv]
  refine ⟨?_, ?_, ?_⟩
  · rw [renameCol_colMap_eq]; simp [VEHICLE_COL]
  · rw [renameCol_colMap_eq]; simp [hv]
  · have hmap : renameCols cols = cols := by
      unfold renameCols
      rw [List.map_congr_left hid]
      simp
    rw [hmap]
    show List.count "Vehicle" cols = 1
    exact List.count_eq_one_of_mem hnd hv

/-- Concrete instance of C10 at a five-column dataset containing both
vehicle-synonym columns. -/
theorem normalize_no_duplicate_canonical_witness :
    renameCol (colMap ["Vehicle", "Vehicle Used", "Start Mileage", "End Mileage",
        "Mileage Type"]) "Vehicle" = VEHICLE_COL ∧
    renameCol (colMap ["Vehicle", "Vehicle Used", "Start Mileage", "End Mileage",
        "Mileage Type"]) "Vehicle Used" = "Vehicle Used" ∧
    (renameCols ["Vehicle", "Vehicle Used", "Start Mileage", "End Mileage",
        "Mileage Type"]).count VEHICLE_COL = 1 :=
  normalize_no_duplicate_canonical _ (by decide) (by decide) (by decide)

/-- Claim C7: whenever some required canonical field cannot be resolved
after renaming, `normalize_column_names` fails, returning no renamed
dataset, and the error lists exactly the required canonical fields still
absent. -/
theorem normalize_missing_columns_fatal (cols : List String)
    (h : ∃ c ∈ expectedCols, ¬ c ∈ renameCols cols) :
    ∃ miss, normalize_column_names cols = .error miss ∧ miss ≠ [] ∧
      ∀ c, c ∈ miss ↔ (c ∈ expectedCols ∧ ¬ c ∈ renameCols cols) := by
  obtain ⟨c0, hc0, hc0n⟩ := h
  refine ⟨missingCols cols, ?_, ?_, ?_⟩
  · unfold normalize_column_names
    have hne : missingCols cols ≠ [] := by
      intro hnil
      have : c0 ∈ missingCols cols := by
        unfold missingCols
        rw [List.mem_filter]
        exact ⟨hc0, by simpa using hc0n⟩
      rw [hnil] at this
      exact List.not_mem_nil c0 this
    simp [hne]
  · intro hnil
    have : c0 ∈ missingCols cols := by
      unfold missingCols
      rw [List.mem_filter]
      exact ⟨hc0, by simpa using hc0n⟩
    rw [hnil] at this
    exact List.not_mem_nil c0 this
  · intro c
    unfold missingCols
    rw [List.mem_filter]
    simp

/-- Concrete instance of C7: a dataset lacking only an `End Mileage`
column fails, and the error set contains exactly `End Mileage`. -/
theorem normalize_missing_columns_fatal_witness :
    ∃ miss, normalize_column_names ["Date", "Vehicle", "Start Mileage", "Mileage Type"]
        = .error miss ∧ miss ≠ [] ∧
      ∀ c, c ∈ miss ↔ (c ∈ expectedCols ∧
        ¬ c ∈ renameCols ["Date", "Vehicle", "Start Mileage", "Mileage Type"]) :=
  normalize_missing_columns_fatal _ (by decide)

/-! ## Theorems about the row preparer -/

theorem containsSub_iff (needle : PyStr) :
    ∀ hay : PyStr, containsSub needle hay = true ↔
      ∃ pre post, hay = pre ++ needle ++ post
  | [] => by
    unfold containsSub
    rw [List.isEmpty_iff]
    constructor
    · rintro rfl
      exact ⟨[], [], rfl⟩
    · rintro ⟨pre, post, h⟩
      rcases List.append_eq_nil.mp (List.append_eq_nil.mp h.symm).1 with ⟨-, h2⟩
      exact h2
  | c :: rest => by
    unfold containsSub
    rw [Bool.or_eq_true, List.isPrefixOf_iff_prefix, containsSub_iff needle rest]
    constructor
    · rintro (⟨t, ht⟩ | ⟨pre, post, h⟩)
      · exact ⟨[], t, by simpa using ht.symm⟩
      · exact ⟨c :: pre, post, by simp [h]⟩
    · rintro ⟨pre, post, h⟩
      cases pre with
      | nil =>
        exact Or.inl ⟨post, by simpa using h.symm⟩
      | cons p ps =>
        simp only [List.cons_append, List.cons.injEq] at h
        exact Or.inr ⟨ps, post, h.2⟩

/-- Claim C6: `_is_commute` is true exactly when the Mileage Type text
contains `"commute"` as a case-insensitive substring, and a missing (NaN)
Mileage Type yields false (the cell is stringified first, so the check is
total and never raises). -/
theorem prepareRow_is_commute_spec (r : CanonRow) :
    (∀ s, r.mtype = .str s →
      ((prepareRow r).isCommute = true ↔
        ∃ pre post, lowerN s = pre ++ ofStr "commute" ++ post)) ∧
    (r.mtype = .nan → (prepareRow r).isCommute = false) := by
  constructor
  · intro s hs
    simp only [prepareRow, isCommuteOf, hs, pyToStr]
    exact containsSub_iff _ _
  · intro hnan
    simp only [prepareRow, isCommuteOf, hnan, pyToStr]
    decide

/-- Concrete instance of C6: Mileage Type `"COMMUTE - home"` sets the flag
(the claim's case-insensitive substring examples) and a NaN type does not. -/
theorem prepareRow_is_commute_spec_witness :
    ((prepareRow ⟨.str (ofStr "Jim"), .num 0, .num 1, .str (ofStr "COMMUTE - home")⟩).isCommute
        = true ↔
      ∃ pre post, lowerN (ofStr "COMMUTE - home") = pre ++ ofStr "commute" ++ post) ∧
    (prepareRow ⟨.str (ofStr "Jim"), .num 0, .num 1, .nan⟩).isCommute = false :=
  ⟨(prepareRow_is_commute_spec ⟨.str (ofStr "Jim"), .num 0, .num 1,
      .str (ofStr "COMMUTE - home")⟩).1 (ofStr "COMMUTE - home") rfl,
    (prepareRow_is_commute_spec ⟨.str (ofStr "Jim"), .num 0, .num 1, .nan⟩).2 rfl⟩

/-- Claim C5: a prepared row has `_row_ok = true` exactly when its `Miles`
value is a real number (not the NaN sentinel) that is `≥ 0`, with no
tolerance and no rounding; and no row is dropped — every input row yields
its prepared row. -/
theorem prepareRow_row_ok_spec (rows : List CanonRow) :
    (load_and_prepare rows).length = rows.length ∧
    (∀ r ∈ rows, prepareRow r ∈ load_and_prepare rows) ∧
    ∀ p ∈ load_and_prepare rows,
      (p.rowOk = true ↔ ∃ m : ℚ, p.miles = some m ∧ 0 ≤ m) := by
  refine ⟨List.length_map rows prepareRow, fun r hr => List.mem_map_of_mem prepareRow hr, ?_⟩
  intro p hp
  obtain ⟨r, -, rfl⟩ := List.mem_map.mp hp
  show rowOkOf (subNaN (toNumeric r.endM) (toNumeric r.startM)) = true ↔ _
  cases h : subNaN (toNumeric r.endM) (toNumeric r.startM) with
  | none => simp [prepareRow, rowOkOf, h]
  | some m =>
    simp only [prepareRow, rowOkOf, h, decide_eq_true_eq]
    constructor
    · exact fun hm => ⟨m, rfl, hm⟩
    · rintro ⟨m2, hm2, hge⟩
      cases hm2
      exact hge

/-- Concrete instance of C5: a one-row set with Start=100, End=50 keeps its
row, whose flag is false because `Miles = -50 < 0`. -/
theorem prepareRow_row_ok_spec_witness :
    (load_and_prepare [⟨.str (ofStr "Jim"), .num 100, .num 50,
        .str (ofStr "Business")⟩]).length = 1 ∧
    ((prepareRow ⟨.str (ofStr "Jim"), .num 100, .num 50, .str (ofStr "Business")⟩).rowOk
        = true ↔
      ∃ m : ℚ, (prepareRow ⟨.str (ofStr "Jim"), .num 100, .num 50,
          .str (ofStr "Business")⟩).miles = some m ∧ 0 ≤ m) :=
  ⟨(prepareRow_row_ok_spec [⟨.str (ofStr "Jim"), .num 100, .num 50,
      .str (ofStr "Business")⟩]).1,
    (prepareRow_row_ok_spec [⟨.str (ofStr "Jim"), .num 100, .num 50,
        .str (ofStr "Business")⟩]).2.2 _
      (List.mem_map_of_mem prepareRow (by simp))⟩

/-- Claim C9: numeric coercion of the odometer cells is total (`toNumeric`
returns the NaN sentinel `none` instead of raising, and in particular an
unparseable string coerces to the sentinel), and `Miles` is the coerced End
minus the coerced Start, with the sentinel propagating through the
subtraction. -/
theorem prepareRow_miles_spec (r : CanonRow) :
    ((prepareRow r).startM = toNumeric r.startM ∧
      (prepareRow r).endM = toNumeric r.endM) ∧
    (∀ s, r.startM = .str s → parsePyNum s = none → (prepareRow r).startM = none) ∧
    (∀ e s, toNumeric r.endM = some e → toNumeric r.startM = some s →
      (prepareRow r).miles = some (e - s)) ∧
    ((toNumeric r.endM = none ∨ toNumeric r.startM = none) →
      (prepareRow r).miles = none) := by
  refine ⟨⟨rfl, rfl⟩, ?_, ?_, ?_⟩
  · intro s hs hparse
    simp [prepareRow, toNumeric, hs, hparse]
  · intro e s he hs
    simp [prepareRow, subNaN, he, hs]
  · rintro (h | h) <;> simp only [prepareRow, subNaN, h] <;>
      cases toNumeric r.startM <;> cases toNumeric r.endM <;> simp_all [subNaN]

/-- Concrete instance of C9: End=150/Start=100 gives `Miles = 50`, an
unparseable Start text gives the sentinel, and the sentinel propagates to
`Miles`. -/
theorem prepareRow_miles_spec_witness :
    (prepareRow ⟨.str (ofStr "Jim"), .num 100, .num 150,
        .str (ofStr "Business")⟩).miles = some ((150 : ℚ) - 100) ∧
    (prepareRow ⟨.str (ofStr "Jim"), .str (ofStr "n/a"), .num 150,
        .str (ofStr "Business")⟩).startM = none ∧
    (prepareRow ⟨.str (ofStr "Jim"), .str (ofStr "n/a"), .num 150,
        .str (ofStr "Business")⟩).miles = none :=
  ⟨(prepareRow_miles_spec ⟨.str (ofStr "Jim"), .num 100, .num 150,
        .str (ofStr "Business")⟩).2.2.1 150 100 rfl rfl,
    (prepareRow_miles_spec ⟨.str (ofStr "Jim"), .str (ofStr "n/a"), .num 150,
        .str (ofStr "Business")⟩).2.1 (ofStr "n/a") rfl (by decide),
    (prepareRow_miles_spec ⟨.str (ofStr "Jim"), .str (ofStr "n/a"), .num 150,
        .str (ofStr "Business")⟩).2.2.2 (Or.inr (by decide))⟩

/-! ## Theorems about the aggregator -/

theorem lexLe_total : ∀ a b : PyStr, lexLe a b = true ∨ lexLe b a = true
  | [], _ => Or.inl rfl
  | _ :: _, [] => Or.inr rfl
  | a :: as, b :: bs => by
    unfold lexLe
    rcases Nat.lt_trichotomy a b with h | h | h
    · left
      simp [h]
    · subst h
      rcases lexLe_total as bs with ih | ih <;> simp [ih, Nat.lt_irrefl]
    · right
      simp [h]

theorem lexLe_trans :
    ∀ a b c : PyStr, lexLe a b = true → lexLe b c = true → lexLe a c = true
  | [], _, _, _, _ => rfl
  | _ :: _, [], _, h, _ => by simp [lexLe] at h
  | _ :: _, _ :: _, [], _, h => by simp [lexLe] at h
  | x :: xs, y :: ys, z :: zs, h1, h2 => by
    unfold lexLe at h1 h2 ⊢
    by_cases hxy : x < y
    · by_cases hyz : y < z
      · simp [Nat.lt_trans hxy hyz]
      · by_cases heyz : y = z
        · subst heyz
          simp [hxy]
        · simp [hyz, heyz] at h2
    · by_cases hexy : x = y
      · subst hexy
        by_cases hyz : x < z
        · simp [hyz]
        · by_cases hexz : x = z
          · subst hexz
            simp only [Nat.lt_irrefl, if_false, if_pos rfl] at h1 h2 ⊢
            exact lexLe_trans xs ys zs h1 h2
          · simp [hyz, hexz] at h2
      · simp [hxy, hexy] at h1

instance : IsTotal PyStr LexLeP := ⟨lexLe_total⟩

instance : IsTrans PyStr LexLeP := ⟨lexLe_trans⟩

theorem map_self {α : Type} (f : α → α) (h : ∀ a, f a = a) :
    ∀ l : List α, l.map f = l
  | [] => rfl
  | a :: t => by rw [List.map_cons, h a, map_self f h t]

theorem aggregate_vehicles_eq (rows : List PreparedRow) :
    (aggregate_by_vehicle rows).map (fun s => s.vehicle)
      = (((rows.filter (fun r => r.rowOk)).map
          (fun r => r.vehicle)).dedup).insertionSort LexLeP := by
  unfold aggregate_by_vehicle
  rw [List.map_map]
  exact map_self _ (fun a => rfl) _

theorem aggregate_mem_vehicles_iff (rows : List PreparedRow) (v : PyStr) :
    v ∈ (aggregate_by_vehicle rows).map (fun s => s.vehicle) ↔
      ∃ r ∈ rows, r.rowOk = true ∧ r.vehicle = v := by
  rw [aggregate_vehicles_eq, List.mem_insertionSort, List.mem_dedup, List.mem_map]
  constructor
  · rintro ⟨r, hr, rfl⟩
    rw [List.mem_filter] at hr
    exact ⟨r, hr.1, hr.2, rfl⟩
  · rintro ⟨r, hr, hok, rfl⟩
    exact ⟨r, List.mem_filter.mpr ⟨hr, hok⟩, rfl⟩

/-- Claim C3: the vehicles of the Vehicle Summary are exactly the distinct
cleaned vehicle names of the rows whose `_row_ok` is true; a vehicle whose
rows are all invalid is omitted from the summary entirely. -/
theorem aggregate_key_set_spec (rows : List PreparedRow) (v : PyStr) :
    v ∈ (aggregate_by_vehicle rows).map (fun s => s.vehicle) ↔
      ∃ r ∈ rows, r.rowOk = true ∧ r.vehicle = v :=
  aggregate_mem_vehicles_iff rows v

/-- Claim C2: every Vehicle Summary row satisfies
`Total_Miles = Business_Miles + Commute_Miles` exactly; the total is
computed from the other two columns. -/
theorem aggregate_total_eq_sum (rows : List PreparedRow) (s : SummaryRow)
    (h : s ∈ aggregate_by_vehicle rows) : s.total = s.business + s.commute := by
  simp only [aggregate_by_vehicle, List.mem_map] at h
  obtain ⟨v, -, rfl⟩ := h
  rfl

/-- Claim C1: the aggregator keeps exactly the `_row_ok` rows, sums their
`Miles` per vehicle and class, emits one row per distinct kept vehicle
(with a 0 sum — never a missing entry — for a class the vehicle has no kept
rows in), and orders the result ascending lexicographically by the cleaned
vehicle name: the vehicle column is sorted under `LexLeP` and duplicate
free, its members are exactly the kept vehicles, and each row carries the
two class sums. -/
theorem aggregate_steps_spec (rows : List PreparedRow) :
    List.Sorted LexLeP ((aggregate_by_vehicle rows).map (fun s => s.vehicle)) ∧
    ((aggregate_by_vehicle rows).map (fun s => s.vehicle)).Nodup ∧
    (∀ v, v ∈ (aggregate_by_vehicle rows).map (fun s => s.vehicle) ↔
      ∃ r ∈ rows, r.rowOk = true ∧ r.vehicle = v) ∧
    ∀ s ∈ aggregate_by_vehicle rows,
      s.business = sumMiles (rows.filter
          (fun r => r.rowOk && r.vehicle == s.vehicle && !r.isCommute)) ∧
      s.commute = sumMiles (rows.filter
          (fun r => r.rowOk && r.vehicle == s.vehicle && r.isCommute)) := by
  refine ⟨?_, ?_, fun v => aggregate_mem_vehicles_iff rows v, ?_⟩
  · rw [aggregate_vehicles_eq]
    exact List.sorted_insertionSort LexLeP _
  · rw [aggregate_vehicles_eq]
    exact ((List.perm_insertionSort LexLeP _).nodup_iff).mpr (List.nodup_dedup _)
  · intro s hs
    simp only [aggregate_by_vehicle, List.mem_map] at hs
    obtain ⟨v, -, rfl⟩ := hs
    constructor <;>
      · show sumMiles _ = sumMiles _
        congr 1
        rw [List.filter_filter]
        apply List.filter_congr
        intro r _
        cases hok : r.rowOk <;> cases hic : r.isCommute <;>
          cases hveq : r.vehicle == v <;> rfl

/-- Prepared rows used by the aggregator witnesses: a valid business trip
for Jim and an invalid (negative-miles) row for Zed. -/
def sampleRows : List PreparedRow :=
  [⟨ofStr "Jim", some 100, some 150, PyVal.str (ofStr "Business"), some 50, true, false⟩,
   ⟨ofStr "Zed", some 100, some 50, PyVal.str (ofStr "Business"), some (-50), false, false⟩]

theorem aggregate_sampleRows_eq :
    aggregate_by_vehicle sampleRows = [⟨ofStr "Jim", 50, 0, 50⟩] := by
  simp [aggregate_by_vehicle, sampleRows, sumMiles, List.filter, List.dedup]

/-- Concrete instance of C1: in `sampleRows`, Jim's summary row carries his
business sum and a 0 commute sum (and Zed's invalid row contributes to
neither). -/
theorem aggregate_steps_spec_witness :
    (⟨ofStr "Jim", 50, 0, 50⟩ : SummaryRow).business
        = sumMiles (sampleRows.filter
          (fun r => r.rowOk && r.vehicle == ofStr "Jim" && !r.isCommute)) ∧
    (⟨ofStr "Jim", 50, 0, 50⟩ : SummaryRow).commute
        = sumMiles (sampleRows.filter
          (fun r => r.rowOk && r.vehicle == ofStr "Jim" && r.isCommute)) :=
  (aggregate_steps_spec sampleRows).2.2.2 ⟨ofStr "Jim", 50, 0, 50⟩
    (by rw [aggregate_sampleRows_eq]; exact List.mem_singleton_self _)

/-- Concrete instance of C2 at `sampleRows`. -/
theorem aggregate_total_eq_sum_witness :
    (⟨ofStr "Jim", 50, 0, 50⟩ : SummaryRow).total
        = (⟨ofStr "Jim", 50, 0, 50⟩ : SummaryRow).business
          + (⟨ofStr "Jim", 50, 0, 50⟩ : SummaryRow).commute :=
  aggregate_total_eq_sum sampleRows ⟨ofStr "Jim", 50, 0, 50⟩
    (by rw [aggregate_sampleRows_eq]; exact List.mem_singleton_self _)

end Mileage
